import Mathlib

/-!
Verification of the virtualization/multiplexing core of this Tock fork:
shallow embeddings of `src/capsules/src/virtual_adc.rs`,
`src/capsules/src/bus.rs`, `src/capsules/src/memory_async.rs`,
`src/capsules/src/st7789h2.rs` and the bus-width model of
`src/kernel/src/hil/bus.rs` / `src/kernel/src/hil/memory_async.rs`,
together with theorems settling the spec's claims about them.

Conventions: machine bytes are `Nat` values kept below 256 by explicit
`% 256` where the source casts; a Rust `&'static mut [u8]` buffer is a
`List Nat`; a `Cell`/`OptionalCell`/`TakeCell` field is an ordinary field
(of `Option` type where the cell can be empty); an entry point that can
`panic!` returns a result type with an explicit `panicked` constructor.
Calls into the raw hardware drivers are recorded as explicit call/effect
values, and a driver's synchronous reply is passed in as a parameter.
-/

namespace Tock

/-- Embedding of the kernel return codes (`kernel::ReturnCode`); only the
variants used by the verified capsules appear. -/
inductive ReturnCode where
  | SUCCESS
  | FAIL
  | EBUSY
  | ENOMEM
  | ENOSUPPORT
  | EINVAL
  | EOFF
  deriving DecidableEq, Repr

/-- Embedding of `BusWidth` from src/kernel/src/hil/bus.rs. -/
inductive BusWidth where
  | Bits8
  | Bits16LE
  | Bits16BE
  | Bits32LE
  | Bits32BE
  | Bits64LE
  | Bits64BE
  deriving DecidableEq, Repr

/-- Embedding of `BusWidth::width_in_bytes` from src/kernel/src/hil/bus.rs
(lines 17-26), exactly as the source computes it. -/
def BusWidth.width_in_bytes : BusWidth → Nat
  | .Bits8 => 1
  | .Bits16BE | .Bits16LE => 2
  | .Bits32BE | .Bits32LE => 3
  | .Bits64BE | .Bits64LE => 4

/-- Embedding of the free function `bus_width_in_bytes` from
src/capsules/src/bus.rs (lines 9-16). -/
def bus_width_in_bytes : BusWidth → Nat
  | .Bits8 => 1
  | .Bits16BE | .Bits16LE => 2
  | .Bits32BE | .Bits32LE => 3
  | .Bits64BE | .Bits64LE => 4

/-- Embedding of `BusWidth` from src/kernel/src/hil/memory_async.rs. -/
inductive MemBusWidth where
  | Bits8
  | Bits16
  | Bits32
  | Bits64
  deriving DecidableEq, Repr

/-- Embedding of the free function `bus_width_in_bytes` from
src/capsules/src/memory_async.rs (lines 7-14). -/
def mem_bus_width_in_bytes : MemBusWidth → Nat
  | .Bits8 => 1
  | .Bits16 => 2
  | .Bits32 => 3
  | .Bits64 => 4

/-- A Rust `&'static mut [u8]` buffer, as its list of byte values. -/
abbrev Buffer := List Nat

/-- Synchronous reply of `SpiMasterDevice::read_write_bytes` as observed by
the adapters in src/capsules/src/bus.rs: the device either accepts the
transfer (completion will come later via callback) or rejects it, handing
back the buffers it was given.  A misbehaving device may fail to hand back
the read buffer (`returnsReadBuffer = false`), which the adapter treats as
fatal. -/
inductive SpiDeviceReply where
  | accept
  | reject (code : ReturnCode) (returnsReadBuffer : Bool)
  deriving DecidableEq, Repr

/-- One `read_write_bytes` transfer handed to the raw SPI device. -/
structure SpiCall where
  writeBuffer : Buffer
  readBuffer : Option Buffer
  len : Nat
  deriving DecidableEq, Repr

/-- State of the `SpiBus` adapter from src/capsules/src/bus.rs: the
internally held write-filler buffer (`read_write_buffer`). -/
structure SpiBusState where
  read_write_buffer : Option Buffer
  deriving DecidableEq, Repr

/-- Outcome of one synchronous adapter entry point: the Rust function either
returns `Ok(())`, returns `Err((code, buffer))` handing a buffer back to the
caller, or panics.  `calls` records the transfers forwarded to the raw
device, in order. -/
inductive BusOutcome (σ ε : Type) where
  | ok (state : σ) (calls : List ε)
  | err (code : ReturnCode) (buffer : Buffer) (state : σ) (calls : List ε)
  | panicked (msg : String)
  deriving DecidableEq, Repr

/-- Device calls recorded by a `BusOutcome`. -/
def BusOutcome.deviceCalls : BusOutcome σ ε → List ε
  | .ok _ calls => calls
  | .err _ _ _ calls => calls
  | .panicked _ => []

/-- Embedding of `SpiBus::write` from src/capsules/src/bus.rs (lines
91-117). -/
def SpiBus.write (spi : SpiDeviceReply) (s : SpiBusState) (data_width : BusWidth)
    (buffer : Buffer) (len : Nat) : BusOutcome SpiBusState SpiCall :=
  let bytes := bus_width_in_bytes data_width
  if len * bytes ≤ buffer.length then
    match spi with
    | .accept => .ok s [⟨buffer, none, len⟩]
    | .reject code _ => .err code buffer s [⟨buffer, none, len⟩]
  else
    .err .ENOMEM buffer s []

/-- Embedding of `SpiBus::read` from src/capsules/src/bus.rs (lines
119-150).  The adapter takes its internally held write-filler buffer and
panics if the slot is empty; note that on the `ENOMEM` path the taken
filler buffer is never put back (the slot stays empty), exactly as in the
source. -/
def SpiBus.read (spi : SpiDeviceReply) (s : SpiBusState) (data_width : BusWidth)
    (buffer : Buffer) (len : Nat) : BusOutcome SpiBusState SpiCall :=
  let bytes := bus_width_in_bytes data_width
  match s.read_write_buffer with
  | none => .panicked "bus::read: spi did not return the read write buffer"
  | some write_buffer =>
    if len * bytes ≤ write_buffer.length ∧ 0 < write_buffer.length ∧
        len * bytes < buffer.length then
      match spi with
      | .accept => .ok ⟨none⟩ [⟨write_buffer, some buffer, len⟩]
      | .reject code true =>
        .err code buffer ⟨some write_buffer⟩ [⟨write_buffer, some buffer, len⟩]
      | .reject _ false => .panicked "spi did not return the read buffer"
    else
      .err .ENOMEM buffer ⟨none⟩ []

/-- Embedding of `SpiBus::read_addr` from src/capsules/src/bus.rs (lines
66-89).  With 8-bit address width it stamps the address byte into the
write-filler buffer, puts it back, and delegates to `SpiBus::read`; on the
`ENOMEM` path the taken filler buffer is not put back, as in the source. -/
def SpiBus.read_addr (spi : SpiDeviceReply) (s : SpiBusState) (addr_width : BusWidth)
    (addr : Nat) (data_width : BusWidth) (buffer : Buffer) (len : Nat) :
    BusOutcome SpiBusState SpiCall :=
  match addr_width with
  | .Bits8 =>
    match s.read_write_buffer with
    | none => .panicked "bus::read_addr: spi did not return the read write buffer"
    | some write_buffer =>
      if len < write_buffer.length ∧ 0 < write_buffer.length ∧ len < buffer.length then
        SpiBus.read spi ⟨some (write_buffer.set 0 (addr % 256))⟩ data_width buffer len
      else
        .err .ENOMEM buffer ⟨none⟩ []
  | _ => .err .ENOSUPPORT buffer s []

/-- Synchronous reply of the raw I2C device's `write`/`read` as observed by
the `I2CBus` adapter. -/
inductive I2CDeviceReply where
  | accept
  | reject (code : ReturnCode)
  deriving DecidableEq, Repr

/-- One call forwarded to the raw I2C device; the recorded length is the
`u8` value actually passed (the source's `as u8` cast truncates mod 256). -/
inductive I2CCall where
  | write (buffer : Buffer) (len : Nat)
  | read (buffer : Buffer) (len : Nat)
  | write_read (buffer : Buffer) (wlen rlen : Nat)
  deriving DecidableEq, Repr

/-- State of the `I2CBus` adapter from src/capsules/src/bus.rs: the item
count stored at request time (`len: Cell<usize>`). -/
structure I2CBusState where
  len : Nat
  deriving DecidableEq, Repr

/-- Embedding of `I2CBus::write` from src/capsules/src/bus.rs (lines
240-255): the stored item count is updated before the device call. -/
def I2CBus.write (i2c : I2CDeviceReply) (s : I2CBusState) (data_width : BusWidth)
    (buffer : Buffer) (len : Nat) : BusOutcome I2CBusState I2CCall :=
  let bytes := bus_width_in_bytes data_width
  if len * bytes < 255 ∧ len * bytes ≤ buffer.length then
    match i2c with
    | .accept => .ok ⟨len⟩ [.write buffer ((len * bytes) % 256)]
    | .reject code => .err code buffer ⟨len⟩ [.write buffer ((len * bytes) % 256)]
  else
    .err .ENOMEM buffer s []

/-- Embedding of `I2CBus::read` from src/capsules/src/bus.rs (lines
257-271).  The guard uses the bitwise AND `len & bytes` exactly as the
source does. -/
def I2CBus.read (i2c : I2CDeviceReply) (s : I2CBusState) (data_width : BusWidth)
    (buffer : Buffer) (len : Nat) : BusOutcome I2CBusState I2CCall :=
  let bytes := bus_width_in_bytes data_width
  if len &&& bytes < 255 ∧ len * bytes ≤ buffer.length then
    match i2c with
    | .accept => .ok ⟨len⟩ [.read buffer ((len * bytes) % 256)]
    | .reject code => .err code buffer ⟨len⟩ [.read buffer ((len * bytes) % 256)]
  else
    .err .ENOMEM buffer s []

/-- Modelled from the spec: the raw I2C driver's completion-status enum
(`hil::i2c::Error` is not under src/).  The spec describes it as "the raw
driver's own error enum on its completion callback"; the adapter only
distinguishes the success variant `CommandComplete` from every failure
variant. -/
inductive I2CError where
  | CommandComplete
  | AddressNak
  | DataNak
  | ArbitrationLost
  | Overrun
  deriving DecidableEq, Repr

/-- Embedding of the `I2CClient::command_complete` impl for `I2CBus` from
src/capsules/src/bus.rs (lines 278-287): the (buffer, length) completion
relayed to the adapter's Bus client. -/
def I2CBus.command_complete (s : I2CBusState) (buffer : Buffer) (error : I2CError) :
    Buffer × Nat :=
  (buffer,
    match error with
    | .CommandComplete => s.len
    | _ => 0)

/-- Embedding of `Operation` from src/capsules/src/virtual_adc.rs: the unit
of work a virtual ADC client can enqueue. -/
inductive Operation where
  | SingleSample
  deriving DecidableEq, Repr

/-- One registered `AdcUser` node from src/capsules/src/virtual_adc.rs: its
channel, its pending-operation slot, and whether a completion client is
registered in its `client` cell. -/
structure AdcUser where
  channel : Nat
  operation : Option Operation
  hasClient : Bool
  deriving DecidableEq, Repr

/-- State of one `MuxAdc` from src/capsules/src/virtual_adc.rs together
with its physical ADC.  `devices` is the intrusive client list in list
order (head first); `inflight` is the index into `devices` of the node held
in the mux's `inflight` cell.  The physical ADC is modelled by
`outstanding`, the number of `adc.sample` operations issued but not yet
completed, and `dispatches`, the channel argument of every `adc.sample`
call in order.  `delivered` records each `(channel, sample)` pair handed to
a virtual client's completion callback. -/
structure MuxAdc where
  devices : List AdcUser
  inflight : Option Nat
  outstanding : Nat
  dispatches : List Nat
  delivered : List (Nat × Nat)
  deriving DecidableEq, Repr

/-- Embedding of `MuxAdc::new` from src/capsules/src/virtual_adc.rs. -/
def MuxAdc.new : MuxAdc :=
  { devices := [], inflight := none, outstanding := 0, dispatches := [], delivered := [] }

/-- Applies `f` to the list entry at index `i` (identity when out of
range); used for updates through an `AdcUser`'s cells. -/
def modifyAt (f : AdcUser → AdcUser) : List AdcUser → Nat → List AdcUser
  | [], _ => []
  | d :: ds, 0 => f d :: ds
  | d :: ds, i + 1 => d :: modifyAt f ds i

/-- Scan of `self.devices.iter().find(|node| node.operation.is_some())`:
the first node (head first) with a pending operation, with its index. -/
def findPending : List AdcUser → Nat → Option (Nat × AdcUser)
  | [], _ => none
  | d :: ds, i => if d.operation.isSome then some (i, d) else findPending ds (i + 1)

/-- Embedding of `MuxAdc::do_next_op` from src/capsules/src/virtual_adc.rs
(lines 40-68).  With nothing in flight it scans head-first for the first
client with a pending operation, issues `adc.sample(&node.channel)` and
marks it inflight — without clearing the node's operation slot (the source
only reads the slot there).  With a node already in flight, the source
takes (clears) that node's pending operation, issues another `adc.sample`,
and recurses; `fuel` bounds that recursion. -/
def MuxAdc.do_next_op : Nat → MuxAdc → MuxAdc
  | 0, s => s
  | fuel + 1, s =>
    match s.inflight with
    | none =>
      match findPending s.devices 0 with
      | none => s
      | some (i, d) =>
        { s with
          inflight := some i,
          outstanding := s.outstanding + 1,
          dispatches := s.dispatches ++ [d.channel] }
    | some i =>
      match s.devices.get? i with
      | none => s
      | some d =>
        match d.operation with
        | none => s
        | some _ =>
          MuxAdc.do_next_op fuel
            { s with
              devices := modifyAt (fun n => { n with operation := none }) s.devices i,
              outstanding := s.outstanding + 1,
              dispatches := s.dispatches ++ [d.channel] }

/-- Embedding of the `hil::adc::Client::sample_ready` impl for `MuxAdc`
from src/capsules/src/virtual_adc.rs (lines 12-29): one physical sample
completes (so `outstanding` drops by one); every node whose channel equals
the inflight node's channel and that has a pending operation has that
operation cleared and its client notified; then the inflight slot is
cleared and the scheduler runs again. -/
def MuxAdc.sample_ready (fuel : Nat) (s : MuxAdc) (sample : Nat) : MuxAdc :=
  let inflightChannel : Option Nat :=
    s.inflight.bind fun i => (s.devices.get? i).map (·.channel)
  let isMatch : AdcUser → Bool := fun d =>
    match inflightChannel with
    | some ch => d.channel = ch ∧ d.operation.isSome
    | none => false
  let cleared := s.devices.map fun d =>
    if isMatch d then { d with operation := none } else d
  let newDelivered := s.delivered ++
    (s.devices.filterMap fun d =>
      if isMatch d ∧ d.hasClient then some (d.channel, sample) else none)
  MuxAdc.do_next_op fuel
    { s with
      devices := cleared,
      delivered := newDelivered,
      inflight := none,
      outstanding := s.outstanding - 1 }

/-- Embedding of `AdcUser::add_to_mux` from src/capsules/src/virtual_adc.rs
(lines 96-98) together with `List::push_head`.  Modelled from the spec
where kernel/src/common/list.rs is not under src/: the mux owns "an
intrusive singly-linked list" of clients scanned head-first, and
`push_head` inserts the new node at the head of that list. -/
def AdcUser.add_to_mux (s : MuxAdc) (d : AdcUser) : MuxAdc :=
  { s with devices := d :: s.devices }

/-- The operation-slot update performed by `AdcUser::sample` before it runs
the scheduler: `self.operation.set(Operation::SingleSample)`, which
overwrites whatever was pending. -/
def AdcUser.setPending (s : MuxAdc) (i : Nat) : MuxAdc :=
  { s with devices := modifyAt (fun n => { n with operation := some .SingleSample }) s.devices i }

/-- The operation-slot update performed by `AdcUser::stop_sampling`:
`self.operation.clear()`. -/
def AdcUser.clearPending (s : MuxAdc) (i : Nat) : MuxAdc :=
  { s with devices := modifyAt (fun n => { n with operation := none }) s.devices i }

/-- Embedding of `AdcUser::sample` (the `hil::adc::AdcChannel` impl) from
src/capsules/src/virtual_adc.rs (lines 108-112), for the client at index
`i`: set the pending operation, run the mux scheduler, return `SUCCESS`. -/
def AdcUser.sample (fuel : Nat) (s : MuxAdc) (i : Nat) : ReturnCode × MuxAdc :=
  (.SUCCESS, MuxAdc.do_next_op fuel (AdcUser.setPending s i))

/-- Embedding of `AdcUser::stop_sampling` from
src/capsules/src/virtual_adc.rs (lines 114-118). -/
def AdcUser.stop_sampling (fuel : Nat) (s : MuxAdc) (i : Nat) : ReturnCode × MuxAdc :=
  (.SUCCESS, MuxAdc.do_next_op fuel (AdcUser.clearPending s i))

/-- The C1 failing run: clients A (channel 0) then B (channel 1) registered
on one mux in that order; A submits a sample, then B submits a sample
before the hardware completes. -/
def muxDoubleSampleRun : MuxAdc :=
  let m0 := AdcUser.add_to_mux MuxAdc.new { channel := 0, operation := none, hasClient := true }
  let m1 := AdcUser.add_to_mux m0 { channel := 1, operation := none, hasClient := true }
  let m2 := (AdcUser.sample 4 m1 1).2
  (AdcUser.sample 4 m2 0).2

/-- Claim C1 (mutual exclusion) fails on the code: after A.sample() and
then B.sample() with no completion in between, two physical `adc.sample`
operations are outstanding (both on A's channel 0), while the inflight slot
still holds A. -/
theorem c1_mutual_exclusion_violated :
    muxDoubleSampleRun.outstanding = 2 ∧
    muxDoubleSampleRun.dispatches = [0, 0] ∧
    muxDoubleSampleRun.inflight = some 1 := by
  decide

/-- The C2 run: clients A (channel 10), B (channel 11), C (channel 12)
registered via `add_to_mux` in that order, each holding a pending operation
before any dispatch occurs; the scheduler then runs and the hardware
completes each dispatched sample in turn. -/
def muxHeadOrderRun : MuxAdc :=
  let m0 := AdcUser.add_to_mux MuxAdc.new
    { channel := 10, operation := some .SingleSample, hasClient := true }
  let m1 := AdcUser.add_to_mux m0
    { channel := 11, operation := some .SingleSample, hasClient := true }
  let m2 := AdcUser.add_to_mux m1
    { channel := 12, operation := some .SingleSample, hasClient := true }
  let m3 := MuxAdc.do_next_op 4 m2
  let m4 := MuxAdc.sample_ready 4 m3 500
  let m5 := MuxAdc.sample_ready 4 m4 501
  MuxAdc.sample_ready 4 m5 502

/-- Claim C2 as stated is false: with A, B, C registered in that order
(channels 10, 11, 12) and all three pending before any dispatch, the
physical ADC receives the dispatches in the order C, B, A — not A, B, C. -/
theorem c2_registration_order_counterexample :
    muxHeadOrderRun.dispatches = [12, 11, 10] ∧
    muxHeadOrderRun.dispatches ≠ [10, 11, 12] := by
  decide

/-- Amended claim C2: because `add_to_mux` pushes each new client at the
head of the intrusive list and `do_next_op` scans head-first, the mux
dispatches pending operations in reverse registration order — C's first,
then B's, then A's. -/
theorem c2_reverse_registration_order (chA chB chC v1 v2 v3 : Nat)
    (hAB : chA ≠ chB) (hAC : chA ≠ chC) (hBC : chB ≠ chC) :
    (MuxAdc.sample_ready 4 (MuxAdc.sample_ready 4 (MuxAdc.sample_ready 4
      (MuxAdc.do_next_op 4
        (AdcUser.add_to_mux (AdcUser.add_to_mux (AdcUser.add_to_mux MuxAdc.new
          { channel := chA, operation := some .SingleSample, hasClient := true })
          { channel := chB, operation := some .SingleSample, hasClient := true })
          { channel := chC, operation := some .SingleSample, hasClient := true }))
      v1) v2) v3).dispatches = [chC, chB, chA] := by
  simp [MuxAdc.sample_ready, MuxAdc.do_next_op, findPending, modifyAt,
    AdcUser.add_to_mux, MuxAdc.new, hAB, hAC, hBC,
    Ne.symm hAB, Ne.symm hAC, Ne.symm hBC]

/-- Witness for the amended claim C2 at concrete channels 10, 11, 12. -/
theorem c2_reverse_registration_order_witness :
    (MuxAdc.sample_ready 4 (MuxAdc.sample_ready 4 (MuxAdc.sample_ready 4
      (MuxAdc.do_next_op 4
        (AdcUser.add_to_mux (AdcUser.add_to_mux (AdcUser.add_to_mux MuxAdc.new
          { channel := 10, operation := some .SingleSample, hasClient := true })
          { channel := 11, operation := some .SingleSample, hasClient := true })
          { channel := 12, operation := some .SingleSample, hasClient := true }))
      500) 501) 502).dispatches = [12, 11, 10] :=
  c2_reverse_registration_order 10 11 12 500 501 502
    (by decide) (by decide) (by decide)

/-- Index `i` of `modifyAt f l i` holds the image under `f` of what `l`
holds there. -/
theorem modifyAt_get? (f : AdcUser → AdcUser) (l : List AdcUser) (i : Nat) :
    (modifyAt f l i)[i]? = (l[i]?).map f := by
  induction l generalizing i with
  | nil => simp [modifyAt]
  | cons d ds ih => cases i <;> simp [modifyAt, ih]

/-- Claim C9: submitting work on an `AdcUser` never fails — for every prior
state, `sample` answers `SUCCESS` after overwriting the single
pending-operation slot with `SingleSample` (never `EBUSY`), and
`stop_sampling` answers `SUCCESS` after clearing the slot. -/
theorem c9_submission_always_succeeds (fuel : Nat) (s : MuxAdc) (i : Nat) :
    (AdcUser.sample fuel s i).1 = .SUCCESS ∧
    (AdcUser.stop_sampling fuel s i).1 = .SUCCESS ∧
    (AdcUser.setPending s i).devices[i]? =
      (s.devices[i]?).map (fun d => { d with operation := some .SingleSample }) ∧
    (AdcUser.clearPending s i).devices[i]? =
      (s.devices[i]?).map (fun d => { d with operation := none }) := by
  refine ⟨rfl, rfl, ?_, ?_⟩ <;>
    simp [AdcUser.setPending, AdcUser.clearPending, modifyAt_get?]

/-- State of the `SpiMemory` adapter from src/capsules/src/memory_async.rs:
the internally held write-filler buffer. -/
structure SpiMemory where
  read_write_buffer : Option Buffer
  deriving DecidableEq, Repr

/-- Result of a `SpiMemory` entry point (these return a bare `ReturnCode`
rather than a `Result`): the code, the adapter's new state, and the
transfers forwarded to the raw SPI device. -/
structure MemResult where
  code : ReturnCode
  state : SpiMemory
  calls : List SpiCall
  deriving DecidableEq, Repr

/-- Embedding of `SpiMemory::write` from src/capsules/src/memory_async.rs
(lines 98-119): only `Bits8` data widths are forwarded; every other width
returns `ENOSUPPORT` with no SPI transfer.  The raw device's synchronous
reply is the `spi` parameter (its code is returned unchanged on the
forwarded path). -/
def SpiMemory.write (spi : ReturnCode) (s : SpiMemory) (data_width : MemBusWidth)
    (buffer : Buffer) (len : Nat) : MemResult :=
  match data_width with
  | .Bits8 =>
    if len ≤ buffer.length then
      ⟨spi, s, [⟨buffer, none, len⟩]⟩
    else
      ⟨.ENOMEM, s, []⟩
  | _ => ⟨.ENOSUPPORT, s, []⟩

/-- Embedding of `SpiMemory::read` from src/capsules/src/memory_async.rs
(lines 121-138); on the Bits8 path the filler buffer is taken and, as in
the source, not put back. -/
def SpiMemory.read (spi : ReturnCode) (s : SpiMemory) (data_width : MemBusWidth)
    (buffer : Buffer) (len : Nat) : MemResult :=
  match data_width with
  | .Bits8 =>
    match s.read_write_buffer with
    | none => ⟨.ENOMEM, s, []⟩
    | some write_buffer =>
      if len ≤ write_buffer.length ∧ 0 < write_buffer.length ∧ len < buffer.length then
        ⟨spi, ⟨none⟩, [⟨write_buffer, some buffer, len⟩]⟩
      else
        ⟨.ENOMEM, ⟨none⟩, []⟩
  | _ => ⟨.ENOSUPPORT, s, []⟩

set_option maxRecDepth 4000 in
/-- Claim C4 as stated is false: `I2CBus::write` also fails with `ENOMEM`
when the byte count reaches 255, even though the buffer is large enough
(here a 255-byte buffer for 255 8-bit items). -/
theorem c4_exact_enomem_counterexample :
    I2CBus.write .accept ⟨0⟩ .Bits8 (List.replicate 255 0) 255 =
      .err .ENOMEM (List.replicate 255 0) ⟨0⟩ [] ∧
    255 * bus_width_in_bytes .Bits8 ≤ (List.replicate (255 : Nat) (0 : Nat)).length := by
  decide

/-- Amended claim C4: every failing `write`/`read` on the two Bus adapters
returns `ENOMEM` together with the caller's buffer and forwards nothing to
the device, and otherwise the request is forwarded; the exact `ENOMEM`
conditions are: too-small buffer for `SpiBus::write` and `I2CBus::read`;
too-small buffer or a byte count of at least 255 for `I2CBus::write`; and,
for `SpiBus::read` with the write-filler buffer present, a filler shorter
than the byte count, an empty filler, or a buffer not strictly larger than
the byte count. -/
theorem c4_enomem_conditions (spi : SpiDeviceReply) (i2c : I2CDeviceReply)
    (sS : SpiBusState) (sI : I2CBusState) (dw : BusWidth) (buffer wb : Buffer)
    (len : Nat) :
    (SpiBus.write spi sS dw buffer len = .err .ENOMEM buffer sS [] ↔
      buffer.length < len * bus_width_in_bytes dw) ∧
    (len * bus_width_in_bytes dw ≤ buffer.length →
      (SpiBus.write spi sS dw buffer len).deviceCalls = [⟨buffer, none, len⟩]) ∧
    (I2CBus.write i2c sI dw buffer len = .err .ENOMEM buffer sI [] ↔
      (buffer.length < len * bus_width_in_bytes dw ∨
        255 ≤ len * bus_width_in_bytes dw)) ∧
    (len * bus_width_in_bytes dw < 255 → len * bus_width_in_bytes dw ≤ buffer.length →
      (I2CBus.write i2c sI dw buffer len).deviceCalls =
        [.write buffer ((len * bus_width_in_bytes dw) % 256)]) ∧
    (I2CBus.read i2c sI dw buffer len = .err .ENOMEM buffer sI [] ↔
      buffer.length < len * bus_width_in_bytes dw) ∧
    (len * bus_width_in_bytes dw ≤ buffer.length →
      (I2CBus.read i2c sI dw buffer len).deviceCalls =
        [.read buffer ((len * bus_width_in_bytes dw) % 256)]) ∧
    (SpiBus.read spi ⟨some wb⟩ dw buffer len = .err .ENOMEM buffer ⟨none⟩ [] ↔
      ¬(len * bus_width_in_bytes dw ≤ wb.length ∧ 0 < wb.length ∧
        len * bus_width_in_bytes dw < buffer.length)) := by
  have hand : len &&& bus_width_in_bytes dw < 255 := by
    have h1 : len &&& bus_width_in_bytes dw ≤ bus_width_in_bytes dw :=
      Nat.and_le_right
    have h2 : bus_width_in_bytes dw ≤ 4 := by cases dw <;> decide
    omega
  refine ⟨?_, ?_, ?_, ?_, ?_, ?_, ?_⟩
  · by_cases h : len * bus_width_in_bytes dw ≤ buffer.length
    · cases spi <;> simp [SpiBus.write, h]
    · simp [SpiBus.write, h]; omega
  · intro h
    cases spi <;> simp [SpiBus.write, h, BusOutcome.deviceCalls]
  · by_cases h : len * bus_width_in_bytes dw < 255 ∧
        len * bus_width_in_bytes dw ≤ buffer.length
    · cases i2c <;> simp [I2CBus.write, h]
    · simp [I2CBus.write, h]; omega
  · intro h1 h2
    cases i2c <;> simp [I2CBus.write, h1, h2, BusOutcome.deviceCalls]
  · by_cases h : len &&& bus_width_in_bytes dw < 255 ∧
        len * bus_width_in_bytes dw ≤ buffer.length
    · cases i2c <;> simp [I2CBus.read, h]
    · simp [I2CBus.read, h]; omega
  · intro h
    cases i2c <;> simp [I2CBus.read, hand, h, BusOutcome.deviceCalls]
  · by_cases h : len * bus_width_in_bytes dw ≤ wb.length ∧ 0 < wb.length ∧
        len * bus_width_in_bytes dw < buffer.length
    · cases spi with
      | accept => simp [SpiBus.read, h]
      | reject code rb => cases rb <;> simp [SpiBus.read, h]
    · simp [SpiBus.read, h]

/-- Witness for the amended claim C4, at a 1-byte buffer asked for two
8-bit items (`ENOMEM`) and then for one (forwarded to the SPI device). -/
theorem c4_enomem_conditions_witness :
    SpiBus.write .accept ⟨none⟩ .Bits8 [7] 2 = .err .ENOMEM [7] ⟨none⟩ [] ∧
    (SpiBus.write .accept ⟨none⟩ .Bits8 [7] 1).deviceCalls = [⟨[7], none, 1⟩] :=
  ⟨(c4_enomem_conditions .accept .accept ⟨none⟩ ⟨0⟩ .Bits8 [7] [] 2).1.mpr (by decide),
   (c4_enomem_conditions .accept .accept ⟨none⟩ ⟨0⟩ .Bits8 [7] [] 1).2.1 (by decide)⟩

/-- Every panic of `SpiBus::read` with the filler buffer present is the
inner "device did not return the read buffer" panic. -/
theorem spiBus_read_some_panic_msg (spi : SpiDeviceReply) (wb : Buffer)
    (dw : BusWidth) (buffer : Buffer) (len : Nat) (m : String)
    (h : SpiBus.read spi ⟨some wb⟩ dw buffer len = .panicked m) :
    m = "spi did not return the read buffer" := by
  by_cases hg : len * bus_width_in_bytes dw ≤ wb.length ∧ 0 < wb.length ∧
      len * bus_width_in_bytes dw < buffer.length
  · cases spi with
    | accept => simp [SpiBus.read, hg] at h
    | reject code rb =>
      cases rb
      · simp [SpiBus.read, hg] at h
        exact h.symm
      · simp [SpiBus.read, hg] at h
  · simp [SpiBus.read, hg] at h

/-- Claim C5 as stated is false: `SpiBus::read_addr` called with the filler
buffer absent but a 16-bit address width returns `ENOSUPPORT` instead of
panicking. -/
theorem c5_read_addr_counterexample :
    SpiBus.read_addr .accept ⟨none⟩ .Bits16LE 0 .Bits8 [0, 0] 1 =
      .err .ENOSUPPORT [0, 0] ⟨none⟩ [] ∧
    SpiBus.read_addr .accept ⟨none⟩ .Bits16LE 0 .Bits8 [0, 0] 1 ≠
      .panicked "bus::read_addr: spi did not return the read write buffer" := by
  decide

/-- Amended claim C5: `SpiBus::read` panics whenever the internally held
write-filler buffer is absent, and so does `SpiBus::read_addr` when invoked
with its supported 8-bit address width (other address widths return
`ENOSUPPORT` without touching the filler slot); with the filler buffer
present, the missing-filler panic branch of both entry points is
unreachable. -/
theorem c5_missing_filler_panics (spi : SpiDeviceReply) (dw : BusWidth)
    (addr : Nat) (buffer wb : Buffer) (len : Nat) :
    SpiBus.read spi ⟨none⟩ dw buffer len =
      .panicked "bus::read: spi did not return the read write buffer" ∧
    SpiBus.read_addr spi ⟨none⟩ .Bits8 addr dw buffer len =
      .panicked "bus::read_addr: spi did not return the read write buffer" ∧
    (∀ w, w ≠ BusWidth.Bits8 →
      SpiBus.read_addr spi ⟨none⟩ w addr dw buffer len =
        .err .ENOSUPPORT buffer ⟨none⟩ []) ∧
    SpiBus.read spi ⟨some wb⟩ dw buffer len ≠
      .panicked "bus::read: spi did not return the read write buffer" ∧
    (∀ w, SpiBus.read_addr spi ⟨some wb⟩ w addr dw buffer len ≠
        .panicked "bus::read_addr: spi did not return the read write buffer" ∧
      SpiBus.read_addr spi ⟨some wb⟩ w addr dw buffer len ≠
        .panicked "bus::read: spi did not return the read write buffer") := by
  refine ⟨rfl, rfl, ?_, ?_, ?_⟩
  · intro w hw
    cases w <;> first | exact absurd rfl hw | rfl
  · intro h
    have := spiBus_read_some_panic_msg spi wb dw buffer len _ h
    simp at this
  · intro w
    cases w with
    | Bits8 =>
      constructor
      · by_cases hg : len < wb.length ∧ 0 < wb.length ∧ len < buffer.length
        · simp only [SpiBus.read_addr, hg, if_pos]
          intro h
          have := spiBus_read_some_panic_msg spi _ dw buffer len _ h
          simp at this
        · simp [SpiBus.read_addr, hg]
      · by_cases hg : len < wb.length ∧ 0 < wb.length ∧ len < buffer.length
        · simp only [SpiBus.read_addr, hg, if_pos]
          intro h
          have := spiBus_read_some_panic_msg spi _ dw buffer len _ h
          simp at this
        · simp [SpiBus.read_addr, hg]
    | Bits16LE => exact ⟨by simp [SpiBus.read_addr], by simp [SpiBus.read_addr]⟩
    | Bits16BE => exact ⟨by simp [SpiBus.read_addr], by simp [SpiBus.read_addr]⟩
    | Bits32LE => exact ⟨by simp [SpiBus.read_addr], by simp [SpiBus.read_addr]⟩
    | Bits32BE => exact ⟨by simp [SpiBus.read_addr], by simp [SpiBus.read_addr]⟩
    | Bits64LE => exact ⟨by simp [SpiBus.read_addr], by simp [SpiBus.read_addr]⟩
    | Bits64BE => exact ⟨by simp [SpiBus.read_addr], by simp [SpiBus.read_addr]⟩

/-- Witness for the amended claim C5 at a concrete non-8-bit address width
and a concrete present filler buffer. -/
theorem c5_missing_filler_panics_witness :
    SpiBus.read_addr .accept ⟨none⟩ .Bits32LE 0 .Bits8 [0, 0] 1 =
      .err .ENOSUPPORT [0, 0] ⟨none⟩ [] ∧
    SpiBus.read .accept ⟨some [1, 2]⟩ .Bits8 [0, 0] 1 ≠
      .panicked "bus::read: spi did not return the read write buffer" :=
  ⟨(c5_missing_filler_panics .accept .Bits8 0 [0, 0] [1, 2] 1).2.2.1
      .Bits32LE (by decide),
   (c5_missing_filler_panics .accept .Bits8 0 [0, 0] [1, 2] 1).2.2.2.1⟩

/-- Claim C8: `I2CBus` relays a completion whose status is any error other
than `CommandComplete` to its Bus client as a zero-length completion with
the same buffer; a `CommandComplete` status reports the item count stored
at request time (by `I2CBus::write`). -/
theorem c8_error_relayed_as_zero_len (i2c : I2CDeviceReply) (s : I2CBusState)
    (dw : BusWidth) (buffer buffer2 : Buffer) (len : Nat) (e : I2CError) :
    (∀ s2 calls, I2CBus.write i2c s dw buffer len = .ok s2 calls →
      I2CBus.command_complete s2 buffer2 e =
        (buffer2, if e = .CommandComplete then len else 0)) ∧
    (e ≠ .CommandComplete → I2CBus.command_complete s buffer2 e = (buffer2, 0)) ∧
    I2CBus.command_complete s buffer2 .CommandComplete = (buffer2, s.len) := by
  refine ⟨?_, ?_, rfl⟩
  · intro s2 calls h
    by_cases hg : len * bus_width_in_bytes dw < 255 ∧
        len * bus_width_in_bytes dw ≤ buffer.length
    · cases i2c with
      | accept =>
        simp [I2CBus.write, hg] at h
        cases h.1
        cases e <;> simp [I2CBus.command_complete]
      | reject code => simp [I2CBus.write, hg] at h
    · simp [I2CBus.write, hg] at h
  · intro he
    cases e with
    | CommandComplete => exact absurd rfl he
    | _ => rfl

/-- Witness for claim C8 at a concrete accepted write of two items and a
concrete failing completion status. -/
theorem c8_error_relayed_as_zero_len_witness :
    I2CBus.command_complete ⟨2⟩ [5] .AddressNak = ([5], 0) ∧
    I2CBus.command_complete ⟨2⟩ [5] .CommandComplete = ([5], 2) :=
  ⟨(c8_error_relayed_as_zero_len .accept ⟨2⟩ .Bits8 [1, 2] [5] 2 .AddressNak).2.1
      (by decide),
   (c8_error_relayed_as_zero_len .accept ⟨2⟩ .Bits8 [1, 2] [5] 2 .CommandComplete).2.2⟩

/-- The claim that a 32-bit item occupies 3 bytes and a 64-bit item 4 bytes
is what every width function in the source actually computes; this theorem
evaluates all three at the failing inputs.  (Divergence for claim C3, which
states 4 and 8.) -/
theorem c3_width_in_bytes_divergence :
    BusWidth.width_in_bytes .Bits32LE = 3 ∧ BusWidth.width_in_bytes .Bits32BE = 3 ∧
    BusWidth.width_in_bytes .Bits64LE = 4 ∧ BusWidth.width_in_bytes .Bits64BE = 4 ∧
    bus_width_in_bytes .Bits32LE = 3 ∧ bus_width_in_bytes .Bits64LE = 4 ∧
    mem_bus_width_in_bytes .Bits32 = 3 ∧ mem_bus_width_in_bytes .Bits64 = 4 ∧
    BusWidth.width_in_bytes .Bits8 = 1 ∧ BusWidth.width_in_bytes .Bits16LE = 2 ∧
    BusWidth.width_in_bytes .Bits16BE = 2 := by
  decide

/-- Embedding of `Command` from src/capsules/src/st7789h2.rs: a static
display-command descriptor (opcode, optional parameter bytes, delay). -/
structure Command where
  id : Nat
  parameters : Option (List Nat)
  delay : Nat
  deriving DecidableEq, Repr

/-- The static command table of src/capsules/src/st7789h2.rs (lines
47-205). -/
def NOP : Command := ⟨0x00, none, 0⟩

def SW_RESET : Command := ⟨0x01, none, 200⟩

def SLEEP_IN : Command := ⟨0x10, none, 10⟩

def SLEEP_OUT : Command := ⟨0x11, none, 120⟩

def DISPLAY_INVERSION : Command := ⟨0x21, none, 120⟩

def DISPLAY_OFF : Command := ⟨0x28, none, 0⟩

def DISPLAY_ON : Command := ⟨0x29, none, 20⟩

def WRITE_RAM : Command := ⟨0x2C, none, 0⟩

def READ_RAM : Command := ⟨0x2E, none, 0⟩

def CASET : Command := ⟨0x2A, some [0x00, 0x00, 0x00, 0xEF], 0⟩

def RASET : Command := ⟨0x2B, some [0x00, 0x00, 0x00, 0xEF], 0⟩

def NORMAL_DISPLAY : Command := ⟨0x36, some [0x00], 0⟩

def IDLE_OFF : Command := ⟨0x38, none, 20⟩

def IDLE_ON : Command := ⟨0x39, none, 0⟩

def COLOR_MODE : Command := ⟨0x3A, some [0x05], 0⟩

def PV_GAMMA_CTRL : Command :=
  ⟨0xE0, some [0xD0, 0x08, 0x11, 0x08, 0x0C, 0x15, 0x39, 0x33, 0x50, 0x36,
    0x13, 0x14, 0x29, 0x2D], 0⟩

def NV_GAMMA_CTRL : Command :=
  ⟨0xE1, some [0xD0, 0x08, 0x10, 0x08, 0x06, 0x06, 0x39, 0x44, 0x51, 0x0B,
    0x16, 0x14, 0x2F, 0x31], 0⟩

def PORCH_CTRL : Command := ⟨0xB2, some [0x0C, 0x0C, 0x00, 0x33, 0x33], 0⟩

def GATE_CTRL : Command := ⟨0xB7, some [0x35], 0⟩

def LCM_CTRL : Command := ⟨0xC0, some [0x2C], 0⟩

def VDV_VRH_EN : Command := ⟨0xC2, some [0x01, 0xC3], 0⟩

def VDV_SET : Command := ⟨0xC4, some [0x20], 0⟩

def FR_CTRL : Command := ⟨0xC6, some [0x0F], 0⟩

def VCOM_SET : Command := ⟨0xBB, some [0x1F], 0⟩

def POWER_CTRL : Command := ⟨0xD0, some [0xA4, 0xA1], 0⟩

def TEARING_EFFECT : Command := ⟨0x35, some [0x00], 0⟩

/-- Embedding of `SendCommand` from src/capsules/src/st7789h2.rs (lines
262-275): how a command's parameters are spliced into the shared buffer. -/
inductive SendCommand where
  | Nop
  | Default (cmd : Command)
  | Position (cmd : Command) (position len : Nat)
  | Repeat (cmd : Command) (position len count : Nat)
  | Slice (cmd : Command) (len : Nat)
  deriving DecidableEq, Repr

/-- Embedding of `INIT_SEQUENCE` from src/capsules/src/st7789h2.rs (lines
215-237). -/
def INIT_SEQUENCE : List SendCommand :=
  [.Default SLEEP_IN, .Default SW_RESET, .Default SLEEP_OUT,
   .Default NORMAL_DISPLAY, .Default COLOR_MODE, .Default DISPLAY_INVERSION,
   .Default CASET, .Default RASET, .Default PORCH_CTRL, .Default GATE_CTRL,
   .Default VCOM_SET, .Default LCM_CTRL, .Default VDV_VRH_EN, .Default VDV_SET,
   .Default FR_CTRL, .Default POWER_CTRL, .Default PV_GAMMA_CTRL,
   .Default NV_GAMMA_CTRL, .Default DISPLAY_ON, .Default SLEEP_OUT,
   .Default TEARING_EFFECT]

/-- Embedding of `Status` from src/capsules/src/st7789h2.rs (lines
249-261). -/
inductive Status where
  | Idle
  | Init
  | Reset1
  | Reset2
  | Reset3
  | Reset4
  | SendCommand (position len count : Nat)
  | SendCommandSlice (len : Nat)
  | SendParametersSlice
  | Delay
  deriving DecidableEq, Repr

/-- Externally observable actions of the ST7789H2 driver: calls into its
`Memory` bus, reset-pin toggles, alarm arming (duration in ms), and
callbacks delivered to the app or to screen clients. -/
inductive Effect where
  | memWriteAddr (addr_width : MemBusWidth) (addr : Nat) (data_width : MemBusWidth)
      (buffer : Buffer) (len : Nat)
  | memWrite (data_width : MemBusWidth) (buffer : Buffer) (len : Nat)
  | resetSet
  | resetClear
  | setAlarm (ms : Nat)
  | appCallback
  | screenIsReady
  | setupComplete (code : ReturnCode)
  | commandComplete (code : ReturnCode)
  | writeComplete (buffer : Buffer) (code : ReturnCode)
  deriving DecidableEq, Repr

/-- State of one ST7789H2 driver instance from src/capsules/src/st7789h2.rs
(struct at lines 277-299); the three client cells appear as presence flags
since only their presence steers control flow. -/
structure ST7789H2 where
  status : Status
  width : Nat
  height : Nat
  sequence_buffer : Option (List SendCommand)
  position_in_sequence : Nat
  sequence_len : Nat
  command : Command
  buffer : Option Buffer
  power_on : Bool
  setup_command : Bool
  write_buffer : Option Buffer
  hasCallback : Bool
  hasClient : Bool
  hasSetupClient : Bool
  deriving DecidableEq, Repr

/-- Result of one synchronous run of the driver code with no return value:
the new state with the effects produced in order, a panic, or exhausted
recursion fuel. -/
inductive STRun where
  | ok (s : ST7789H2) (effs : List Effect)
  | panicked (msg : String)
  | nofuel
  deriving DecidableEq, Repr

/-- Result of a driver entry point that returns a `ReturnCode`. -/
inductive STCall where
  | ok (code : ReturnCode) (s : ST7789H2) (effs : List Effect)
  | panicked (msg : String)
  | nofuel
  deriving DecidableEq, Repr

/-- A single checked byte store `buffer[i] = v`; Rust slice indexing panics
out of bounds, modelled as `none`. -/
def writeAt (buffer : Buffer) (i : Nat) (v : Nat) : Option Buffer :=
  if i < buffer.length then some (buffer.set i v) else none

/-- Sequential byte stores `buffer[start + k] = vs[k]` (the parameter-copy
loop of `send_command_with_default_parameters`). -/
def writeList (buffer : Buffer) (start : Nat) : List Nat → Option Buffer
  | [] => some buffer
  | v :: rest =>
    match writeAt buffer start v with
    | none => none
    | some b => writeList b (start + 1) rest

/-- Elementwise copy of a command sequence over the front of the sequence
buffer — the copy loop of `send_sequence`.  The source checks capacity
before this loop, so under that guard the buffer never runs out. -/
def copySeq : List SendCommand → List SendCommand → List SendCommand
  | [], sb => sb
  | _ :: _, [] => []
  | c :: cs, _ :: rest => c :: copySeq cs rest

/-- The parameter-shift loop of `send_parameters`: sequentially
`buffer[k] = buffer[position + k]` for `k < len`, exactly as the source's
`for i in position..len + position` loop mutates the single buffer. -/
def shiftStep (position : Nat) : Nat → Nat → Buffer → Option Buffer
  | _, 0, buffer => some buffer
  | k, n + 1, buffer =>
    match buffer[position + k]? with
    | none => none
    | some v =>
      match writeAt buffer k v with
      | none => none
      | some b => shiftStep position (k + 1) n b

/-- The color-fill loop of `fill`: starting at offset 9, write `n` pairs of
the color's high byte `(color >> 8) & 0xFF` and low byte `color as u8`. -/
def fillColors (color : Nat) : Buffer → Nat → Nat → Option Buffer
  | buffer, _, 0 => some buffer
  | buffer, idx, n + 1 =>
    match writeAt buffer (9 + 2 * idx) (color / 256 % 256) with
    | none => none
    | some b1 =>
      match writeAt b1 (9 + 2 * idx + 1) (color % 256) with
      | none => none
      | some b2 => fillColors color b2 (idx + 1) n

/-- Embedding of `ST7789H2::send_command` from src/capsules/src/st7789h2.rs
(lines 394-405): record the command, move to `SendCommand` status, take the
shared buffer and issue the command id over the bus. -/
def sendCommand (cmd : Command) (position len count : Nat) (s : ST7789H2) : STRun :=
  let s := { s with command := cmd, status := .SendCommand position len count }
  match s.buffer with
  | none => .panicked "st7789h2: send command has no buffer"
  | some buffer =>
    .ok { s with buffer := none } [.memWriteAddr .Bits8 cmd.id .Bits8 buffer 0]

/-- Embedding of `ST7789H2::send_command_slice` (lines 407-418). -/
def sendCommandSlice (cmd : Command) (len : Nat) (s : ST7789H2) : STRun :=
  let s := { s with command := cmd, status := .SendCommandSlice len }
  match s.buffer with
  | none => .panicked "st7789h2: send command has no buffer"
  | some buffer =>
    .ok { s with buffer := none } [.memWriteAddr .Bits8 cmd.id .Bits8 buffer 0]

/-- Embedding of `ST7789H2::send_command_with_default_parameters` (lines
376-392): flatten the command's static parameter bytes into the front of
the shared buffer, then `send_command(cmd, 0, len, 1)`. -/
def sendCommandWithDefault (cmd : Command) (s : ST7789H2) : STRun :=
  match s.buffer with
  | none => .panicked "st7789h2: send parameters has no buffer"
  | some buffer =>
    match writeList buffer 0 (cmd.parameters.getD []) with
    | none => .panicked "index out of bounds"
    | some b =>
      sendCommand cmd 0 (cmd.parameters.getD []).length 1 { s with buffer := some b }

/-- Embedding of `ST7789H2::send_parameters_slice` (lines 440-448): take
the externally supplied write buffer and stream it over the bus as 16-bit
items. -/
def sendParametersSlice (len : Nat) (s : ST7789H2) : STRun :=
  match s.write_buffer with
  | none => .panicked "st7789h2: no write buffer"
  | some buffer =>
    .ok { s with status := .SendParametersSlice, write_buffer := none }
      [.memWrite .Bits16 buffer (len / 2)]

/-- Embedding of `ST7789H2::do_next_op` from src/capsules/src/st7789h2.rs
(lines 577-696), with the source's recursion bounded by `fuel`.  The
`SendCommand` arm with a nonzero repeat count inlines `send_parameters`
(lines 420-438), and the `Init` arm inlines
`send_sequence(&INIT_SEQUENCE)` — whose status check passes because the arm
just set `Idle` — exactly as the source executes it, discarding its
`ReturnCode`. -/
def doNextOp : Nat → ST7789H2 → STRun
  | 0, _ => .nofuel
  | fuel + 1, s =>
    match s.status with
    | .Delay =>
      match s.sequence_buffer with
      | none => .panicked "st7789h2: do next op has no sequence buffer"
      | some sequence =>
        let position := s.position_in_sequence
        let s := { s with position_in_sequence := position + 1 }
        if position < s.sequence_len then
          match sequence[position]? with
          | none => .panicked "index out of bounds"
          | some .Nop => doNextOp fuel s
          | some (.Default cmd) => sendCommandWithDefault cmd s
          | some (.Position cmd p l) => sendCommand cmd p l 1 s
          | some (.Repeat cmd p l r) => sendCommand cmd p l r s
          | some (.Slice cmd l) => sendCommandSlice cmd l s
        else
          let s := { s with status := .Idle }
          let e1 := if s.hasCallback then [Effect.appCallback] else []
          if s.power_on = false then
            if s.hasClient then
              .ok { s with power_on := true } (e1 ++ [.screenIsReady])
            else
              .ok s e1
          else if s.setup_command then
            let s := { s with setup_command := false }
            if s.hasSetupClient then .ok s (e1 ++ [.setupComplete .SUCCESS])
            else .ok s e1
          else if s.hasClient then
            match s.write_buffer with
            | some wb =>
              .ok { s with write_buffer := none } (e1 ++ [.writeComplete wb .SUCCESS])
            | none => .ok s (e1 ++ [.commandComplete .SUCCESS])
          else .ok s e1
    | .SendCommand position len count =>
      if count = 0 then
        if 0 < s.command.delay then
          .ok { s with status := .Delay }
            [.setAlarm (if s.command.delay = 255 then 500 else s.command.delay)]
        else
          doNextOp fuel { s with status := .Delay }
      else
        let s := { s with status := .SendCommand 0 len (count - 1) }
        if 0 < len then
          match s.buffer with
          | none => .panicked "st7789h2: send parameters has no buffer"
          | some buffer =>
            match (if position = 0 then some buffer else shiftStep position 0 len buffer) with
            | none => .panicked "index out of bounds"
            | some b => .ok { s with buffer := none } [.memWrite .Bits8 b len]
        else
          doNextOp fuel s
    | .SendCommandSlice len => sendParametersSlice len s
    | .SendParametersSlice =>
      if 0 < s.command.delay then
        .ok { s with status := .Delay }
          [.setAlarm (if s.command.delay = 255 then 500 else s.command.delay)]
      else
        doNextOp fuel { s with status := .Delay }
    | .Reset1 =>
      match sendCommandWithDefault NOP s with
      | .ok s2 effs => .ok { s2 with status := .Reset2 } (effs ++ [.resetClear, .setAlarm 5])
      | r => r
    | .Reset2 => .ok { s with status := .Reset3 } [.resetSet, .setAlarm 10]
    | .Reset3 => .ok { s with status := .Reset4 } [.resetClear, .setAlarm 20]
    | .Reset4 => .ok { s with status := .Init } [.resetSet, .setAlarm 10]
    | .Init =>
      let s := { s with status := .Idle }
      match s.sequence_buffer with
      | none => .panicked "st7789h2: send sequence has no sequence buffer"
      | some sb =>
        if INIT_SEQUENCE.length ≤ sb.length then
          doNextOp fuel
            { s with
              sequence_buffer := some (copySeq INIT_SEQUENCE sb),
              sequence_len := INIT_SEQUENCE.length,
              position_in_sequence := 0,
              status := .Delay }
        else
          .ok s []
    | .Idle => .panicked "ST7789H2 status Idle"

/-- Embedding of `ST7789H2::send_sequence_buffer` (lines 364-374): reject
with `EBUSY` unless Idle, otherwise rewind to position 0, enter `Delay` and
run the replay loop. -/
def sendSequenceBuffer (fuel : Nat) (s : ST7789H2) : STCall :=
  if s.status = .Idle then
    match doNextOp fuel { s with position_in_sequence := 0, status := .Delay } with
    | .ok s2 effs => .ok .SUCCESS s2 effs
    | .panicked m => .panicked m
    | .nofuel => .nofuel
  else
    .ok .EBUSY s []

/-- Embedding of `ST7789H2::send_sequence` (lines 338-362): reject with
`EBUSY` unless Idle; copy the caller's sequence into the private sequence
buffer under a capacity check, failing with `ENOMEM` (and mutating nothing)
if it does not fit; then begin replay via `send_sequence_buffer`. -/
def sendSequence (fuel : Nat) (sequence : List SendCommand) (s : ST7789H2) : STCall :=
  if s.status = .Idle then
    match s.sequence_buffer with
    | none => .panicked "st7789h2: send sequence has no sequence buffer"
    | some sb =>
      if sequence.length ≤ sb.length then
        sendSequenceBuffer fuel
          { s with
            sequence_buffer := some (copySeq sequence sb),
            sequence_len := sequence.length }
      else
        .ok .ENOMEM s []
  else
    .ok .EBUSY s []

/-- Embedding of `ST7789H2::fill` (lines 450-479).  The guards reflect the
source's panics: writing `sequence[0..2]` panics on a sequence buffer of
fewer than 3 slots, and a shared buffer of at most 10 bytes gives
`buffer_space = 0`, so `bytes / buffer_space` is a division by zero (a
buffer shorter than 9 underflows the subtraction and then indexes out of
bounds); otherwise the CASET/RASET/Repeat commands are written, the color
area is filled with alternating high/low color bytes, `sequence_len`
becomes 3 and replay begins, the `send_sequence_buffer` result being
discarded in favor of `SUCCESS`. -/
def fill (fuel : Nat) (color : Nat) (s : ST7789H2) : STCall :=
  if s.status = .Idle then
    match s.sequence_buffer with
    | none => .panicked "st7789h2: fill has no sequence buffer"
    | some sequence =>
      match s.buffer with
      | none => .panicked "st7789h2: fill has no buffer"
      | some buffer =>
        if 2 < sequence.length then
          if 11 ≤ buffer.length then
            let buffer_space := (buffer.length - 9) / 2 * 2
            let count := 240 * 240 * 2 / buffer_space + 1
            let sequence2 := ((sequence.set 0 (.Default CASET)).set 1
              (.Default RASET)).set 2 (.Repeat WRITE_RAM 9 buffer_space count)
            match fillColors color buffer 0 (buffer_space / 2) with
            | none => .panicked "index out of bounds"
            | some b =>
              match sendSequenceBuffer fuel
                  { s with
                    sequence_buffer := some sequence2,
                    buffer := some b,
                    sequence_len := 3 } with
              | .ok _ s2 effs => .ok .SUCCESS s2 effs
              | .panicked m => .panicked m
              | .nofuel => .nofuel
          else
            .panicked "fill: shared buffer too small"
        else
          .panicked "index out of bounds"
  else
    .ok .EBUSY s []

/-- Sequence-replay statuses: a synchronous `do_next_op` run started in one
of these never modifies `sequence_buffer` or `sequence_len`. -/
def seqSafe : Status → Bool
  | .Delay => true
  | .SendCommand _ _ _ => true
  | .SendCommandSlice _ => true
  | .SendParametersSlice => true
  | _ => false

/-- A `send_command` run preserves the sequence buffer and length. -/
theorem sendCommand_preserves {cmd : Command} {p l r : Nat} {s s2 : ST7789H2}
    {effs : List Effect} (h : sendCommand cmd p l r s = .ok s2 effs) :
    s2.sequence_buffer = s.sequence_buffer ∧ s2.sequence_len = s.sequence_len := by
  cases hb : s.buffer <;> simp [sendCommand, hb] at h
  obtain ⟨h1, -⟩ := h
  subst h1
  exact ⟨rfl, rfl⟩

/-- A `send_command_slice` run preserves the sequence buffer and length. -/
theorem sendCommandSlice_preserves {cmd : Command} {l : Nat} {s s2 : ST7789H2}
    {effs : List Effect} (h : sendCommandSlice cmd l s = .ok s2 effs) :
    s2.sequence_buffer = s.sequence_buffer ∧ s2.sequence_len = s.sequence_len := by
  cases hb : s.buffer <;> simp [sendCommandSlice, hb] at h
  obtain ⟨h1, -⟩ := h
  subst h1
  exact ⟨rfl, rfl⟩

/-- A `send_command_with_default_parameters` run preserves the sequence
buffer and length. -/
theorem sendCommandWithDefault_preserves {cmd : Command} {s s2 : ST7789H2}
    {effs : List Effect} (h : sendCommandWithDefault cmd s = .ok s2 effs) :
    s2.sequence_buffer = s.sequence_buffer ∧ s2.sequence_len = s.sequence_len := by
  cases hb : s.buffer with
  | none => simp [sendCommandWithDefault, hb] at h
  | some b =>
    simp only [sendCommandWithDefault, hb] at h
    split at h
    · exact absurd h (by simp)
    · have h2 := sendCommand_preserves h
      simpa using h2

/-- A `send_parameters_slice` run preserves the sequence buffer and
length. -/
theorem sendParametersSlice_preserves {l : Nat} {s s2 : ST7789H2}
    {effs : List Effect} (h : sendParametersSlice l s = .ok s2 effs) :
    s2.sequence_buffer = s.sequence_buffer ∧ s2.sequence_len = s.sequence_len := by
  cases hb : s.write_buffer <;> simp [sendParametersSlice, hb] at h
  obtain ⟨h1, -⟩ := h
  subst h1
  exact ⟨rfl, rfl⟩

/-- While `do_next_op` replays a sequence (any `seqSafe` status), the
driver's sequence buffer and sequence length are never modified. -/
theorem doNextOp_preserves_sequence :
    ∀ fuel s s2 effs, seqSafe s.status = true → doNextOp fuel s = .ok s2 effs →
      s2.sequence_buffer = s.sequence_buffer ∧ s2.sequence_len = s.sequence_len := by
  intro fuel
  induction fuel with
  | zero => intro s s2 effs _ h; simp [doNextOp] at h
  | succ fuel ih =>
    intro s s2 effs hsafe h
    cases hst : s.status with
    | Idle => rw [hst] at hsafe; simp [seqSafe] at hsafe
    | Init => rw [hst] at hsafe; simp [seqSafe] at hsafe
    | Reset1 => rw [hst] at hsafe; simp [seqSafe] at hsafe
    | Reset2 => rw [hst] at hsafe; simp [seqSafe] at hsafe
    | Reset3 => rw [hst] at hsafe; simp [seqSafe] at hsafe
    | Reset4 => rw [hst] at hsafe; simp [seqSafe] at hsafe
    | Delay =>
      simp only [doNextOp, hst] at h
      split at h
      · exact absurd h (by simp)
      · split at h
        · -- still replaying: dispatch the element at the current position
          split at h
          · exact absurd h (by simp)
          · -- Nop: recurse
            have h2 := ih _ _ _ (by simp [seqSafe]) h
            simpa using h2
          · have h2 := sendCommandWithDefault_preserves h
            simpa using h2
          · have h2 := sendCommand_preserves h
            simpa using h2
          · have h2 := sendCommand_preserves h
            simpa using h2
          · have h2 := sendCommandSlice_preserves h
            simpa using h2
        · -- sequence complete: only status/clients/power flags change
          split at h
          · split at h <;>
              (injection h with h1 h2; subst h1; exact ⟨rfl, rfl⟩)
          · split at h
            · split at h <;>
                (injection h with h1 h2; subst h1; exact ⟨rfl, rfl⟩)
            · split at h
              · split at h <;>
                  (injection h with h1 h2; subst h1; exact ⟨rfl, rfl⟩)
              · injection h with h1 h2; subst h1; exact ⟨rfl, rfl⟩
    | SendCommand position len count =>
      simp only [doNextOp, hst] at h
      split at h
      · split at h
        · injection h with h1 h2; subst h1; exact ⟨rfl, rfl⟩
        · have h2 := ih _ _ _ (by simp [seqSafe]) h
          simpa using h2
      · split at h
        · split at h
          · exact absurd h (by simp)
          · split at h
            · exact absurd h (by simp)
            · injection h with h1 h2; subst h1; exact ⟨rfl, rfl⟩
        · have h2 := ih _ _ _ (by simp [seqSafe]) h
          simpa using h2
    | SendCommandSlice len =>
      simp only [doNextOp, hst] at h
      exact sendParametersSlice_preserves h
    | SendParametersSlice =>
      simp only [doNextOp, hst] at h
      split at h
      · injection h with h1 h2; subst h1; exact ⟨rfl, rfl⟩
      · have h2 := ih _ _ _ (by simp [seqSafe]) h
        simpa using h2

/-- Claim C6: `send_sequence` answers `EBUSY` (with no state change and no
bus activity) whenever the driver is not Idle; when Idle it answers
`ENOMEM` with nothing mutated if the sequence exceeds the sequence buffer's
capacity; and only a sequence that fits is copied into the front of the
sequence buffer — with `sequence_len` recording its length and the copy
still intact when the synchronous part of the replay finishes — reporting
`SUCCESS`. -/
theorem c6_send_sequence (fuel : Nat) (sequence : List SendCommand)
    (s : ST7789H2) (sb : List SendCommand) (hsb : s.sequence_buffer = some sb) :
    (s.status ≠ .Idle → sendSequence fuel sequence s = .ok .EBUSY s []) ∧
    (s.status = .Idle → sb.length < sequence.length →
      sendSequence fuel sequence s = .ok .ENOMEM s []) ∧
    (s.status = .Idle → sequence.length ≤ sb.length →
      ∀ rc s2 effs, sendSequence fuel sequence s = .ok rc s2 effs →
        rc = .SUCCESS ∧ s2.sequence_buffer = some (copySeq sequence sb) ∧
        s2.sequence_len = sequence.length) := by
  refine ⟨?_, ?_, ?_⟩
  · intro hst
    simp [sendSequence, hst]
  · intro hst hlen
    simp [sendSequence, hst, hsb, Nat.not_le.mpr hlen]
  · intro hst hlen rc s2 effs h
    simp only [sendSequence, hst, hsb, reduceIte, hlen, sendSequenceBuffer] at h
    split at h
    · rename_i s4 effs4 hd
      injection h with hrc hs4 heffs4
      have hp := doNextOp_preserves_sequence fuel _ s4 effs4 (by simp [seqSafe]) hd
      subst hs4
      exact ⟨hrc.symm, by simpa using hp.1, by simpa using hp.2⟩
    · exact absurd h (by simp)
    · exact absurd h (by simp)

/-- A concrete Idle driver state with a two-slot sequence buffer. -/
def idleDriver : ST7789H2 :=
  { status := .Idle, width := 240, height := 240,
    sequence_buffer := some [.Nop, .Nop], position_in_sequence := 0,
    sequence_len := 0, command := NOP, buffer := some (List.replicate 24 0),
    power_on := true, setup_command := false, write_buffer := none,
    hasCallback := false, hasClient := false, hasSetupClient := false }

/-- The state the driver reaches after replaying the one-element sequence
`[Nop]` from `idleDriver`. -/
def idleDriverAfterNop : ST7789H2 :=
  { idleDriver with sequence_len := 1, position_in_sequence := 2 }

/-- Witness for claim C6: a busy driver answers `EBUSY`, an overlong
sequence answers `ENOMEM` with nothing changed, and a fitting sequence is
copied and replayed with `SUCCESS`. -/
theorem c6_send_sequence_witness :
    sendSequence 5 [SendCommand.Nop] { idleDriver with status := .Init } =
      .ok .EBUSY { idleDriver with status := .Init } [] ∧
    sendSequence 5 [SendCommand.Nop, SendCommand.Nop, SendCommand.Nop] idleDriver =
      .ok .ENOMEM idleDriver [] ∧
    (ReturnCode.SUCCESS = ReturnCode.SUCCESS ∧
      idleDriverAfterNop.sequence_buffer =
        some (copySeq [SendCommand.Nop] [SendCommand.Nop, SendCommand.Nop]) ∧
      idleDriverAfterNop.sequence_len = 1) := by
  refine ⟨?_, ?_, ?_⟩
  · exact (c6_send_sequence 5 [.Nop] { idleDriver with status := .Init }
      [.Nop, .Nop] rfl).1 (by decide)
  · exact (c6_send_sequence 5 [.Nop, .Nop, .Nop] idleDriver
      [.Nop, .Nop] rfl).2.1 rfl (by decide)
  · exact (c6_send_sequence 5 [.Nop] idleDriver [.Nop, .Nop] rfl).2.2 rfl
      (by decide) .SUCCESS idleDriverAfterNop [] (by decide)

/-- Existence and pointwise description of a single checked store. -/
theorem writeAt_spec (buffer : Buffer) (i : Nat) (v : Nat) (h : i < buffer.length) :
    ∃ b, writeAt buffer i v = some b ∧ b.length = buffer.length ∧
      b[i]? = some v ∧ ∀ j, j ≠ i → b[j]? = buffer[j]? := by
  refine ⟨buffer.set i v, by simp [writeAt, h], by simp, List.getElem?_set_self h, ?_⟩
  intro j hj
  exact List.getElem?_set_ne (Ne.symm hj)

/-- A parameter copy that fits succeeds, keeps the length, and leaves every
byte outside `[start, start + vs.length)` unchanged. -/
theorem writeList_spec (vs : List Nat) :
    ∀ (buffer : Buffer) (start : Nat), start + vs.length ≤ buffer.length →
      ∃ b, writeList buffer start vs = some b ∧ b.length = buffer.length ∧
        ∀ j, (j < start ∨ start + vs.length ≤ j) → b[j]? = buffer[j]? := by
  induction vs with
  | nil => exact fun buffer start _ => ⟨buffer, rfl, rfl, fun j _ => rfl⟩
  | cons v rest ih =>
    intro buffer start h
    simp only [List.length_cons] at h
    obtain ⟨b1, hw, hlen1, -, hout⟩ := writeAt_spec buffer start v (by omega)
    obtain ⟨b2, hw2, hlen2, hout2⟩ := ih b1 (start + 1) (by rw [hlen1]; omega)
    refine ⟨b2, by simp [writeList, hw, hw2], by rw [hlen2, hlen1], ?_⟩
    intro j hj
    simp only [List.length_cons] at hj
    rw [hout2 j (by omega), hout j (by omega)]

/-- The color-fill loop succeeds when the target area fits, keeps the
length, fills the color area with the alternating high/low bytes, and
leaves the bytes below the area unchanged. -/
theorem fillColors_spec (color : Nat) :
    ∀ (n : Nat) (buffer : Buffer) (idx : Nat), 9 + 2 * (idx + n) ≤ buffer.length →
      ∃ b, fillColors color buffer idx n = some b ∧ b.length = buffer.length ∧
        (∀ i, idx ≤ i → i < idx + n →
          b[9 + 2 * i]? = some (color / 256 % 256) ∧
          b[9 + 2 * i + 1]? = some (color % 256)) ∧
        (∀ j, j < 9 + 2 * idx → b[j]? = buffer[j]?) := by
  intro n
  induction n with
  | zero =>
    exact fun buffer idx _ =>
      ⟨buffer, rfl, rfl, fun i h1 h2 => absurd h2 (by omega), fun j _ => rfl⟩
  | succ n ih =>
    intro buffer idx h
    obtain ⟨b1, hw1, hlen1, hget1, hout1⟩ :=
      writeAt_spec buffer (9 + 2 * idx) (color / 256 % 256) (by omega)
    obtain ⟨b2, hw2, hlen2, hget2, hout2⟩ :=
      writeAt_spec b1 (9 + 2 * idx + 1) (color % 256) (by rw [hlen1]; omega)
    obtain ⟨b3, hw3, hlen3, hreg, hbelow⟩ :=
      ih b2 (idx + 1) (by rw [hlen2, hlen1]; omega)
    refine ⟨b3, by simp [fillColors, hw1, hw2, hw3],
      by rw [hlen3, hlen2, hlen1], ?_, ?_⟩
    · intro i h1 h2
      rcases Nat.eq_or_lt_of_le h1 with h1 | h1
      · subst h1
        constructor
        · rw [hbelow _ (by omega), hout2 _ (by omega), hget1]
        · rw [hbelow _ (by omega), hget2]
      · exact hreg i h1 (by omega)
    · intro j hj
      rw [hbelow _ (by omega), hout2 _ (by omega), hout1 _ (by omega)]

/-- The sequence buffer of the driver state carried in an `STCall`
result. -/
def STCall.seqOf : STCall → Option (List SendCommand)
  | .ok _ s _ => s.sequence_buffer
  | _ => none

/-- A concrete Idle driver for the fill counterexample: 3-slot sequence
buffer and a 25-byte shared buffer, so the color area is 16 bytes — which
divides 240*240*2 = 115200 exactly. -/
def fillDemoDriver : ST7789H2 :=
  { status := .Idle, width := 240, height := 240,
    sequence_buffer := some [.Nop, .Nop, .Nop], position_in_sequence := 0,
    sequence_len := 0, command := NOP, buffer := some (List.replicate 25 0),
    power_on := true, setup_command := false, write_buffer := none,
    hasCallback := false, hasClient := false, hasSetupClient := false }

/-- Claim C7 as stated is false: with a 25-byte buffer the color area is
`buffer_space = 16` and `fill` generates `Repeat(WRITE_RAM, 9, 16, 7201)`,
while `ceil(240*240*2 / 16) = 7200`; the source computes
`bytes / buffer_space + 1`, not the ceiling. -/
theorem c7_fill_counterexample :
    (fill 5 0xFFFF fillDemoDriver).seqOf =
      some [.Default CASET, .Default RASET, .Repeat WRITE_RAM 9 16 7201] ∧
    (240 * 240 * 2 + 16 - 1) / 16 = 7200 ∧ (7201 : Nat) ≠ 7200 := by
  decide

/-- Amended claim C7: `fill(color)` from Idle (with at least 3 sequence
slots and a shared buffer of at least 11 bytes) generates the sequence
`[Default(CASET), Default(RASET), Repeat(WRITE_RAM, 9, buffer_space,
repeat)]` of length 3, where `buffer_space` is the even number of color
bytes fitting after the 9 header bytes and
`repeat = (width*height*2 / buffer_space) + 1` — the floored quotient plus
one, which equals the ceiling only when `buffer_space` does not divide
`width*height*2` — and the color area (from offset 9) of the buffer handed
to the bus along with the leading CASET command is filled with alternating
high and low bytes of the color value. -/
theorem c7_fill_amended (fuel color : Nat) (s : ST7789H2) (sq : List SendCommand)
    (buf : Buffer) (hsq : s.sequence_buffer = some sq) (hbuf : s.buffer = some buf)
    (hst : s.status = .Idle) (hsqlen : 2 < sq.length) (hblen : 11 ≤ buf.length) :
    ∀ rc s2 effs, fill fuel color s = .ok rc s2 effs →
      rc = .SUCCESS ∧
      s2.sequence_buffer = some (((sq.set 0 (.Default CASET)).set 1
        (.Default RASET)).set 2 (.Repeat WRITE_RAM 9 ((buf.length - 9) / 2 * 2)
          (240 * 240 * 2 / ((buf.length - 9) / 2 * 2) + 1))) ∧
      s2.sequence_len = 3 ∧
      ∃ b, effs.head? = some (.memWriteAddr .Bits8 CASET.id .Bits8 b 0) ∧
        b.length = buf.length ∧
        ∀ i, i < (buf.length - 9) / 2 →
          b[9 + 2 * i]? = some (color / 256 % 256) ∧
          b[9 + 2 * i + 1]? = some (color % 256) := by
  intro rc s2 effs h
  have hbs2 : (buf.length - 9) / 2 * 2 / 2 = (buf.length - 9) / 2 := by omega
  obtain ⟨fb, hfc, hfblen, hreg, -⟩ :=
    fillColors_spec color ((buf.length - 9) / 2 * 2 / 2) buf 0 (by omega)
  obtain ⟨pb, hwl, hpblen, hpbout⟩ :=
    writeList_spec [0x00, 0x00, 0x00, 0xEF] fb 0
      (by simp only [List.length_cons, List.length_nil, hfblen]; omega)
  have hsq0 : 0 < sq.length := by omega
  simp only [fill, hst, hsq, hbuf, reduceIte, hsqlen, hblen] at h
  rw [hfc] at h
  cases fuel with
  | zero => simp [sendSequenceBuffer, doNextOp, hst] at h
  | succ f =>
    simp [sendSequenceBuffer, hst, doNextOp, List.getElem?_set_ne,
      List.getElem?_set_self, hsq0, sendCommandWithDefault, CASET, hwl,
      sendCommand] at h
    obtain ⟨hrc, hs2, heffs⟩ := h
    subst hs2
    subst heffs
    refine ⟨hrc.symm, rfl, rfl, pb, rfl, hpblen.trans hfblen, ?_⟩
    intro i hi
    constructor
    · rw [hpbout _ (by simp; omega)]
      exact (hreg i (by omega) (by omega)).1
    · rw [hpbout _ (by simp; omega)]
      exact (hreg i (by omega) (by omega)).2

/-- The state `fill 0xFFFF` leaves behind from `fillDemoDriver`: CASET has
been dispatched over the bus and its 4 parameter bytes wait in front of the
16 color bytes. -/
def fillDemoAfter : ST7789H2 :=
  { fillDemoDriver with
    status := .SendCommand 0 4 1,
    position_in_sequence := 1,
    sequence_len := 3,
    sequence_buffer := some [.Default CASET, .Default RASET,
      .Repeat WRITE_RAM 9 16 7201],
    command := CASET,
    buffer := none }

/-- The buffer handed to the bus by that run: CASET's parameters at offsets
0-3 and the 16 color bytes 0xFF from offset 9. -/
def fillDemoSentBuffer : Buffer :=
  [0, 0, 0, 0xEF, 0, 0, 0, 0, 0] ++ List.replicate 16 255

/-- The effects of that run. -/
def fillDemoEffs : List Effect :=
  [.memWriteAddr .Bits8 0x2A .Bits8 fillDemoSentBuffer 0]

/-- Witness for the amended claim C7 at the concrete 25-byte buffer. -/
theorem c7_fill_amended_witness :
    ReturnCode.SUCCESS = ReturnCode.SUCCESS ∧
    fillDemoAfter.sequence_buffer =
      some ((([SendCommand.Nop, .Nop, .Nop].set 0 (.Default CASET)).set 1
        (.Default RASET)).set 2 (.Repeat WRITE_RAM 9
          (((List.replicate 25 (0 : Nat)).length - 9) / 2 * 2)
          (240 * 240 * 2 /
            (((List.replicate 25 (0 : Nat)).length - 9) / 2 * 2) + 1))) ∧
    fillDemoAfter.sequence_len = 3 := by
  have h := c7_fill_amended 5 0xFFFF fillDemoDriver [.Nop, .Nop, .Nop]
    (List.replicate 25 0) rfl rfl rfl (by decide) (by decide)
    .SUCCESS fillDemoAfter fillDemoEffs (by decide)
  exact ⟨h.1, h.2.1, h.2.2.1⟩

/-- Claim C10: `SpiMemory::write` and `SpiMemory::read` answer `ENOSUPPORT`
and start no SPI transfer for every data width other than `Bits8`; and the
ST7789H2 bulk-pixel slice path (`send_parameters_slice`, reached from the
`SendCommandSlice` status) issues `mem.write` with `BusWidth::Bits16`, so
against this adapter that write is rejected with `ENOSUPPORT` and no
transfer. -/
theorem c10_non_bits8_rejected (spi : ReturnCode) (m : SpiMemory)
    (buffer : Buffer) (len fuel : Nat) (st : ST7789H2) (wb : Buffer)
    (slen : Nat) (hst : st.status = .SendCommandSlice slen)
    (hwb : st.write_buffer = some wb) :
    (SpiMemory.write spi m .Bits16 buffer len = ⟨.ENOSUPPORT, m, []⟩ ∧
      SpiMemory.write spi m .Bits32 buffer len = ⟨.ENOSUPPORT, m, []⟩ ∧
      SpiMemory.write spi m .Bits64 buffer len = ⟨.ENOSUPPORT, m, []⟩) ∧
    (SpiMemory.read spi m .Bits16 buffer len = ⟨.ENOSUPPORT, m, []⟩ ∧
      SpiMemory.read spi m .Bits32 buffer len = ⟨.ENOSUPPORT, m, []⟩ ∧
      SpiMemory.read spi m .Bits64 buffer len = ⟨.ENOSUPPORT, m, []⟩) ∧
    doNextOp (fuel + 1) st =
      .ok { st with status := .SendParametersSlice, write_buffer := none }
        [.memWrite .Bits16 wb (slen / 2)] ∧
    SpiMemory.write spi m .Bits16 wb (slen / 2) = ⟨.ENOSUPPORT, m, []⟩ := by
  refine ⟨⟨rfl, rfl, rfl⟩, ⟨rfl, rfl, rfl⟩, ?_, rfl⟩
  simp [doNextOp, hst, sendParametersSlice, hwb]

/-- Witness for claim C10 at a concrete driver state mid-slice-write. -/
theorem c10_non_bits8_rejected_witness :
    SpiMemory.write .SUCCESS ⟨none⟩ .Bits16 [1, 2] 1 =
      ⟨.ENOSUPPORT, ⟨none⟩, []⟩ ∧
    doNextOp 3 { idleDriver with
        status := .SendCommandSlice 4,
        write_buffer := some [9, 9, 9, 9] } =
      .ok { idleDriver with
        status := .SendParametersSlice,
        write_buffer := none } [.memWrite .Bits16 [9, 9, 9, 9] 2] := by
  have h := c10_non_bits8_rejected .SUCCESS ⟨none⟩ [1, 2] 1 2
    { idleDriver with
      status := .SendCommandSlice 4,
      write_buffer := some [9, 9, 9, 9] } [9, 9, 9, 9] 4 rfl rfl
  exact ⟨h.1.1, h.2.2.1⟩

end Tock
